import Mathlib

set_option maxHeartbeats 1000000

/-!
Verification development for the DB_SEEDER repository: a shallow embedding of
the seeding pipeline (orchestrator.py), the discovery crawler (crawler.py),
the provider router (src/provider.py), the gap analyzer (gap_analyzer.py),
the local embedder (embedder.py) and the persistence writer (memory.py),
together with theorems checking the natural-language specification.

External collaborators (HTTP fetching, the HTML parser, the embedding model,
the Supabase client) are modelled as oracle parameters; everything the
repository's own code does with their results is translated directly from
the Python source.
-/

/-- Python's `str.strip()`: remove leading and trailing whitespace. -/
def pyStrip (s : String) : String :=
  String.mk (((s.toList.dropWhile Char.isWhitespace).reverse.dropWhile Char.isWhitespace).reverse)

/-- A content package as produced by the rewrite stage and consumed by the
embed and persist stages.  In the Python source a package is a dict with
keys "table", "content", "word_count" and (once embedded) "embedding";
a missing or null value is `none`.  Vector entries are opaque numbers. -/
structure Package where
  table : Option String := none
  content : String := ""
  word_count : Nat := 0
  embedding : Option (List Int) := none
deriving Repr, DecidableEq

namespace GapAnalyzer

/-- One row as selected by `GapAnalyzer._find_empty_rows`
(`select("id, title, content")`); `content` is nullable. -/
structure GapRow where
  id : Nat
  title : String
  content : Option String
deriving Repr, DecidableEq

/-- The incompleteness test of `gap_analyzer.py`: a row is empty when
`content IS NULL OR content = ''` (the `.or_` filter of the query). -/
def rowIncomplete (r : GapRow) : Bool :=
  r.content = none ∨ r.content = some ""

/-- `GapAnalyzer._find_empty_rows`: scan one table through the client
(oracle `db`, which may raise), keep the rows matching the null-or-empty
filter, limited by `range(0, 9999)` to the first 10000 rows. -/
def findEmptyRows (db : String → Except String (List GapRow)) (table : String) :
    Except String (List GapRow) :=
  match db table with
  | Except.error e => Except.error e
  | Except.ok rows => Except.ok ((rows.filter rowIncomplete).take 10000)

/-- `GapAnalyzer.analyze`: for each table, try `_find_empty_rows`; a raised
exception is logged and the table skipped; a table is recorded only when
`empty_rows` is non-empty (`if empty_rows:`). -/
def analyze (db : String → Except String (List GapRow)) :
    List String → List (String × List GapRow)
  | [] => []
  | t :: rest =>
    match findEmptyRows db t with
    | Except.error _ => analyze db rest
    | Except.ok rows => if rows = [] then analyze db rest else (t, rows) :: analyze db rest

end GapAnalyzer

namespace Orchestrator

/-- `GovernanceConfig` of config.py: the master flag plus the
`kill_switches` dict (read with `.get("global", False)`). -/
structure GovernanceConfig where
  master_enabled : Bool
  kill_switches : List (String × Bool)
deriving Repr, DecidableEq

/-- `LearningConfig.router_toggles` of config.py
(read with `.get("use_url", False)`). -/
structure LearningConfig where
  router_toggles : List (String × Bool)
deriving Repr, DecidableEq

/-- The slice of `BrainState` the orchestrator's gate check reads. -/
structure BrainState where
  governance : GovernanceConfig
  learning : LearningConfig
deriving Repr, DecidableEq

/-- Python `dict.get(key, False)` on a string-keyed dict of booleans. -/
def dictGet (d : List (String × Bool)) (k : String) : Bool :=
  (d.lookup k).getD false

/-- Result of `run_learning_pipeline` (learning.py): the fields the
orchestrator reads from the returned dict. -/
structure FetchResult where
  raw_text : String
  word_count : Nat
deriving Repr, DecidableEq

/-- Summary dict returned by `insert_packages_to_supabase`, as read by the
orchestrator. -/
structure InsertOutcome where
  inserted_count : Nat
  skipped_count : Nat
  failed_count : Nat
deriving Repr, DecidableEq

/-- The four per-URL stage collaborators called by `SeedingOrchestrator.run`;
a Python exception raised by a stage is `Except.error` with the exception
text. -/
structure Stages where
  fetch : String → Except String FetchResult
  rewrite : String → Except String (List Package × Nat)
  embed : List Package → Except String (List Package)
  insert : List Package → String → Except String InsertOutcome

/-- The pipeline report dict, as initialized at the top of
`SeedingOrchestrator.run`. -/
structure Report where
  seed_url : String
  urls_discovered : Nat
  urls_processed : Nat
  urls_failed : Nat
  total_packages : Nat
  total_words : Nat
  total_inserted : Nat
  total_skipped : Nat
  total_failed_inserts : Nat
  gaps_found : List (String × Nat)
  errors : List String
  status : String
deriving Repr, DecidableEq

/-- The report literal at the top of `run`. -/
def initReport (seed_url : String) : Report :=
  { seed_url := seed_url
    urls_discovered := 0
    urls_processed := 0
    urls_failed := 0
    total_packages := 0
    total_words := 0
    total_inserted := 0
    total_skipped := 0
    total_failed_inserts := 0
    gaps_found := []
    errors := []
    status := "started" }

/-- One iteration of the per-URL loop (steps 3 to 6 of
`SeedingOrchestrator.run`): fetch, rewrite, embed, insert, with every stage
exception caught at the URL boundary, recorded in the error list and counted
in `urls_failed`; `continue` moves to the next URL. -/
def processUrl (st : Stages) (r : Report) (url : String) : Report :=
  match st.fetch url with
  | Except.error e =>
    { r with urls_failed := r.urls_failed + 1
             errors := r.errors ++ ["Fetch failed for " ++ url ++ ": " ++ e] }
  | Except.ok fr =>
    if pyStrip fr.raw_text = "" then
      { r with urls_failed := r.urls_failed + 1
               errors := r.errors ++ ["Empty content returned for " ++ url] }
    else
      match st.rewrite fr.raw_text with
      | Except.error e =>
        { r with urls_failed := r.urls_failed + 1
                 errors := r.errors ++ ["Rewrite failed for " ++ url ++ ": " ++ e] }
      | Except.ok (packages, total_words) =>
        if packages = [] then
          { r with urls_failed := r.urls_failed + 1
                   errors := r.errors ++ ["No packages produced for " ++ url] }
        else
          match st.embed packages with
          | Except.error e =>
            { r with urls_failed := r.urls_failed + 1
                     errors := r.errors ++ ["Embedding failed for " ++ url ++ ": " ++ e] }
          | Except.ok packages2 =>
            match st.insert packages2 url with
            | Except.error e =>
              { r with urls_failed := r.urls_failed + 1
                       errors := r.errors ++ ["Insert failed for " ++ url ++ ": " ++ e] }
            | Except.ok ir =>
              { r with total_packages := r.total_packages + packages2.length
                       total_words := r.total_words + total_words
                       total_inserted := r.total_inserted + ir.inserted_count
                       total_skipped := r.total_skipped + ir.skipped_count
                       total_failed_inserts := r.total_failed_inserts + ir.failed_count
                       urls_processed := r.urls_processed + 1 }

/-- `SeedingOrchestrator.run`: gate check, crawler call (its outcome is the
`crawlResult` oracle: the discovered URL list, or the text of a raised
exception), the per-URL loop, the gap analysis (the paired client creation
and scan passed as the `gapResult` oracle), and the final status
derivation. -/
def run (brain : BrainState) (crawlResult : Except String (List String))
    (st : Stages)
    (gapResult : Except String (List (String × List GapAnalyzer.GapRow)))
    (seed_url : String) : Report :=
  let report := initReport seed_url
  if ¬ brain.governance.master_enabled then
    { report with status := "blocked"
                  errors := report.errors ++ ["Blocked by governance — master_enabled is False"] }
  else if dictGet brain.governance.kill_switches "global" then
    { report with status := "blocked"
                  errors := report.errors ++ ["Blocked by governance — global kill switch is active"] }
  else if ¬ dictGet brain.learning.router_toggles "use_url" then
    { report with status := "blocked"
                  errors := report.errors ++ ["Blocked by config — use_url toggle is False"] }
  else
    match crawlResult with
    | Except.error e =>
      { report with status := "failed", errors := report.errors ++ ["Crawler failed: " ++ e] }
    | Except.ok urls =>
      let report := { report with urls_discovered := urls.length }
      if urls = [] then
        { report with status := "failed"
                      errors := report.errors ++ ["Crawler returned no URLs"] }
      else
        let report := urls.foldl (processUrl st) report
        let report :=
          match gapResult with
          | Except.ok gaps =>
            { report with gaps_found := gaps.map (fun p : String × List GapAnalyzer.GapRow => (p.1, p.2.length)) }
          | Except.error e =>
            { report with errors := report.errors ++ ["Gap analysis failed: " ++ e] }
        if report.urls_processed = 0 then { report with status := "failed" }
        else if report.urls_failed > 0 then { report with status := "partial" }
        else { report with status := "success" }

/-- The message recorded when stage processing of `url` raises: the first
stage exception hit along the path actually executed by `processUrl`
(`none` when no stage raises; the empty-content and zero-package skips are
failure recordings, not exceptions). -/
def raisesAt (st : Stages) (url : String) : Option String :=
  match st.fetch url with
  | Except.error e => some ("Fetch failed for " ++ url ++ ": " ++ e)
  | Except.ok fr =>
    if pyStrip fr.raw_text = "" then none
    else
      match st.rewrite fr.raw_text with
      | Except.error e => some ("Rewrite failed for " ++ url ++ ": " ++ e)
      | Except.ok (packages, _) =>
        if packages = [] then none
        else
          match st.embed packages with
          | Except.error e => some ("Embedding failed for " ++ url ++ ": " ++ e)
          | Except.ok packages2 =>
            match st.insert packages2 url with
            | Except.error e => some ("Insert failed for " ++ url ++ ": " ++ e)
            | Except.ok _ => none

/-- Every iteration of the per-URL loop settles its URL exactly once:
either `urls_processed` or `urls_failed` grows by one. -/
theorem processUrl_counts (st : Stages) (r : Report) (url : String) :
    (processUrl st r url).urls_processed + (processUrl st r url).urls_failed
      = r.urls_processed + r.urls_failed + 1 := by
  unfold processUrl
  rcases st.fetch url with e | fr
  · simp; omega
  · dsimp only
    split
    · simp; omega
    · rcases hrw : st.rewrite fr.raw_text with e | ⟨packages, tw⟩
      · simp; omega
      · dsimp only
        split
        · simp; omega
        · rcases hem : st.embed packages with e | packages2
          · simp; omega
          · dsimp only
            rcases hin : st.insert packages2 url with e | ir
            · simp; omega
            · simp; omega

/-- Summing `processUrl_counts` over the whole loop: no URL is skipped or
aborted, each contributes exactly one processed-or-failed count. -/
theorem foldl_processUrl_counts (st : Stages) :
    ∀ (urls : List String) (r : Report),
      (urls.foldl (processUrl st) r).urls_processed
        + (urls.foldl (processUrl st) r).urls_failed
      = r.urls_processed + r.urls_failed + urls.length := by
  intro urls
  induction urls with
  | nil => intro r; simp
  | cons u rest ih =>
    intro r
    simp only [List.foldl_cons, List.length_cons, ih (processUrl st r u),
      processUrl_counts]
    omega

end Orchestrator

namespace Orchestrator

/-- The status-derivation rule at the end of `run` (orchestrator.py,
final-status block). -/
def statusRule (processed failed : Nat) : String :=
  if processed = 0 then "failed" else if failed > 0 then "partial" else "success"

/-- The final-status block of `run` sets `status` by `statusRule` applied to
the report's own (unchanged) counters. -/
theorem final_status_eq (X : Report) :
    (if X.urls_processed = 0 then { X with status := "failed" }
     else if X.urls_failed > 0 then { X with status := "partial" }
     else { X with status := "success" }).status
    = statusRule
      (if X.urls_processed = 0 then { X with status := "failed" }
       else if X.urls_failed > 0 then { X with status := "partial" }
       else { X with status := "success" }).urls_processed
      (if X.urls_processed = 0 then { X with status := "failed" }
       else if X.urls_failed > 0 then { X with status := "partial" }
       else { X with status := "success" }).urls_failed := by
  unfold statusRule
  by_cases hp : X.urls_processed = 0 <;> by_cases hf : X.urls_failed > 0 <;>
    simp [hp, hf]

end Orchestrator

/-- C1 (counterexample): a run with the global kill switch active has zero
processed URLs but ends with status "blocked", not "failed", refuting the
unqualified property that every run with zero processed URLs ends
"failed". -/
theorem c1_counterexample :
    (Orchestrator.run
        { governance := { master_enabled := true, kill_switches := [("global", true)] }
          learning := { router_toggles := [("use_url", true)] } }
        (Except.ok [])
        ⟨fun _ => Except.error "e", fun _ => Except.error "e",
         fun _ => Except.error "e", fun _ _ => Except.error "e"⟩
        (Except.ok []) "https://seed.example").urls_processed = 0
    ∧ (Orchestrator.run
        { governance := { master_enabled := true, kill_switches := [("global", true)] }
          learning := { router_toggles := [("use_url", true)] } }
        (Except.ok [])
        ⟨fun _ => Except.error "e", fun _ => Except.error "e",
         fun _ => Except.error "e", fun _ _ => Except.error "e"⟩
        (Except.ok []) "https://seed.example").status = "blocked"
    ∧ ("blocked" : String) ≠ "failed" := by
  refine ⟨rfl, rfl, by decide⟩

/-- C1 (amended): for every run that passes the gate and receives a
non-empty discovered URL list — i.e. every run that reaches the end of the
per-URL loop — the final status is exactly: "failed" when zero URLs were
processed, else "partial" when at least one URL failed, else "success";
the zero-processed-implies-failed property holds for these runs (a blocked
run also has zero processed URLs but ends "blocked"). -/
theorem c1_status_rule (brain : Orchestrator.BrainState) (st : Orchestrator.Stages)
    (g : Except String (List (String × List GapAnalyzer.GapRow)))
    (seed : String) (urls : List String)
    (h1 : brain.governance.master_enabled = true)
    (h2 : Orchestrator.dictGet brain.governance.kill_switches "global" = false)
    (h3 : Orchestrator.dictGet brain.learning.router_toggles "use_url" = true)
    (hne : urls ≠ []) :
    (Orchestrator.run brain (Except.ok urls) st g seed).status =
      Orchestrator.statusRule
        (Orchestrator.run brain (Except.ok urls) st g seed).urls_processed
        (Orchestrator.run brain (Except.ok urls) st g seed).urls_failed := by
  simp only [Orchestrator.run, h1, h2, h3, Bool.true_eq_false, not_true, if_false,
    Bool.false_eq_true, if_true, not_false_iff, ite_true, ite_false, hne]
  rcases g with e | gaps <;> exact Orchestrator.final_status_eq _

/-- C1 (witness): a concrete gate-passing run whose single URL fails at the
fetch stage ends with zero processed URLs and status "failed". -/
theorem c1_status_rule_witness :
    ({ governance := { master_enabled := true, kill_switches := [("global", false)] }
       learning := { router_toggles := [("use_url", true)] } } :
        Orchestrator.BrainState).governance.master_enabled = true
    ∧ Orchestrator.dictGet [("global", false)] "global" = false
    ∧ Orchestrator.dictGet [("use_url", true)] "use_url" = true
    ∧ (["https://seed.example/a"] : List String) ≠ []
    ∧ (Orchestrator.run
        { governance := { master_enabled := true, kill_switches := [("global", false)] }
          learning := { router_toggles := [("use_url", true)] } }
        (Except.ok ["https://seed.example/a"])
        ⟨fun _ => Except.error "boom", fun _ => Except.error "boom",
         fun _ => Except.error "boom", fun _ _ => Except.error "boom"⟩
        (Except.ok []) "https://seed.example").status =
      Orchestrator.statusRule
        (Orchestrator.run
          { governance := { master_enabled := true, kill_switches := [("global", false)] }
            learning := { router_toggles := [("use_url", true)] } }
          (Except.ok ["https://seed.example/a"])
          ⟨fun _ => Except.error "boom", fun _ => Except.error "boom",
           fun _ => Except.error "boom", fun _ _ => Except.error "boom"⟩
          (Except.ok []) "https://seed.example").urls_processed
        (Orchestrator.run
          { governance := { master_enabled := true, kill_switches := [("global", false)] }
            learning := { router_toggles := [("use_url", true)] } }
          (Except.ok ["https://seed.example/a"])
          ⟨fun _ => Except.error "boom", fun _ => Except.error "boom",
           fun _ => Except.error "boom", fun _ _ => Except.error "boom"⟩
          (Except.ok []) "https://seed.example").urls_failed :=
  ⟨rfl, rfl, rfl, by decide,
    c1_status_rule _ _ _ _ _ rfl rfl rfl (by decide)⟩

/-- C2: whenever one of the three gate conditions fails (master flag off,
global kill switch on, or use_url toggle off), the run returns a report with
status "blocked" and `urls_discovered = 0`, and the result is independent of
the crawler, the per-URL stages and the gap analyzer — the Discovery Engine
is never consulted. -/
theorem c2_gate_blocks (brain : Orchestrator.BrainState)
    (c c' : Except String (List String)) (st st' : Orchestrator.Stages)
    (g g' : Except String (List (String × List GapAnalyzer.GapRow)))
    (seed : String)
    (h : brain.governance.master_enabled = false
        ∨ Orchestrator.dictGet brain.governance.kill_switches "global" = true
        ∨ Orchestrator.dictGet brain.learning.router_toggles "use_url" = false) :
    (Orchestrator.run brain c st g seed).status = "blocked"
    ∧ (Orchestrator.run brain c st g seed).urls_discovered = 0
    ∧ Orchestrator.run brain c st g seed = Orchestrator.run brain c' st' g' seed := by
  rcases h with h | h | h
  · simp [Orchestrator.run, h, Orchestrator.initReport]
  · cases hm : brain.governance.master_enabled <;>
      simp [Orchestrator.run, hm, h, Orchestrator.initReport]
  · cases hm : brain.governance.master_enabled
    · simp [Orchestrator.run, hm, Orchestrator.initReport]
    · cases hk : Orchestrator.dictGet brain.governance.kill_switches "global" <;>
        simp [Orchestrator.run, hm, hk, h, Orchestrator.initReport]

/-- C2 (witness): with the global kill switch active, two runs with entirely
different crawler, stage and gap-analysis behaviour both return the
identical "blocked" report with zero discovered URLs. -/
theorem c2_gate_blocks_witness :
    (({ governance := { master_enabled := true, kill_switches := [("global", true)] }
        learning := { router_toggles := [("use_url", true)] } } :
          Orchestrator.BrainState).governance.master_enabled = false
      ∨ Orchestrator.dictGet [("global", true)] "global" = true
      ∨ Orchestrator.dictGet [("use_url", true)] "use_url" = false)
    ∧ ((Orchestrator.run
          { governance := { master_enabled := true, kill_switches := [("global", true)] }
            learning := { router_toggles := [("use_url", true)] } }
          (Except.ok ["https://seed.example/a"])
          ⟨fun _ => Except.ok ⟨"text", 1⟩, fun _ => Except.ok ([], 0),
           fun p => Except.ok p, fun _ _ => Except.ok ⟨0, 0, 0⟩⟩
          (Except.ok []) "https://seed.example").status = "blocked"
      ∧ (Orchestrator.run
          { governance := { master_enabled := true, kill_switches := [("global", true)] }
            learning := { router_toggles := [("use_url", true)] } }
          (Except.ok ["https://seed.example/a"])
          ⟨fun _ => Except.ok ⟨"text", 1⟩, fun _ => Except.ok ([], 0),
           fun p => Except.ok p, fun _ _ => Except.ok ⟨0, 0, 0⟩⟩
          (Except.ok []) "https://seed.example").urls_discovered = 0
      ∧ Orchestrator.run
          { governance := { master_enabled := true, kill_switches := [("global", true)] }
            learning := { router_toggles := [("use_url", true)] } }
          (Except.ok ["https://seed.example/a"])
          ⟨fun _ => Except.ok ⟨"text", 1⟩, fun _ => Except.ok ([], 0),
           fun p => Except.ok p, fun _ _ => Except.ok ⟨0, 0, 0⟩⟩
          (Except.ok []) "https://seed.example"
        = Orchestrator.run
          { governance := { master_enabled := true, kill_switches := [("global", true)] }
            learning := { router_toggles := [("use_url", true)] } }
          (Except.error "network down")
          ⟨fun _ => Except.error "x", fun _ => Except.error "x",
           fun _ => Except.error "x", fun _ _ => Except.error "x"⟩
          (Except.error "no client") "https://seed.example") :=
  ⟨Or.inr (Or.inl rfl), c2_gate_blocks _ _ _ _ _ _ _ _ (Or.inr (Or.inl rfl))⟩

/-- C4: an exception raised by the Extract, Rewrite, Embed or Persist stage
while processing a URL is caught at that URL's boundary: the report gains
exactly one error entry (whose text contains the originating URL),
`urls_failed` grows by one, nothing else changes, and the per-URL loop
always accounts for every URL — processing never aborts. -/
theorem c4_stage_isolation (st : Orchestrator.Stages) (r : Orchestrator.Report)
    (url msg : String)
    (h : Orchestrator.raisesAt st url = some msg) :
    Orchestrator.processUrl st r url
        = { r with urls_failed := r.urls_failed + 1, errors := r.errors ++ [msg] }
    ∧ (∃ a b, msg = a ++ url ++ b)
    ∧ ∀ (urls : List String) (r0 : Orchestrator.Report),
        (urls.foldl (Orchestrator.processUrl st) r0).urls_processed
            + (urls.foldl (Orchestrator.processUrl st) r0).urls_failed
          = r0.urls_processed + r0.urls_failed + urls.length := by
  have key : Orchestrator.processUrl st r url
      = { r with urls_failed := r.urls_failed + 1, errors := r.errors ++ [msg] }
      ∧ ∃ a b, msg = a ++ url ++ b := by
    unfold Orchestrator.raisesAt at h
    unfold Orchestrator.processUrl
    rcases hf : st.fetch url with e | fr <;> simp only [hf] at h ⊢
    · injection h with h2
      subst h2
      exact ⟨rfl, "Fetch failed for ", ": " ++ e, by simp [String.append_assoc]⟩
    · by_cases hs : pyStrip fr.raw_text = ""
      · rw [if_pos hs] at h
        exact Option.noConfusion h
      · rw [if_neg hs] at h
        rw [if_neg hs]
        rcases hrw : st.rewrite fr.raw_text with e | pr <;> simp only [hrw] at h ⊢
        · injection h with h2
          subst h2
          exact ⟨rfl, "Rewrite failed for ", ": " ++ e, by simp [String.append_assoc]⟩
        · obtain ⟨packages, tw⟩ := pr
          by_cases hp : packages = []
          · rw [if_pos hp] at h
            exact Option.noConfusion h
          · rw [if_neg hp] at h
            rw [if_neg hp]
            rcases hem : st.embed packages with e | packages2 <;> simp only [hem] at h ⊢
            · injection h with h2
              subst h2
              exact ⟨rfl, "Embedding failed for ", ": " ++ e, by simp [String.append_assoc]⟩
            · rcases hin : st.insert packages2 url with e | ir <;> simp only [hin] at h ⊢
              · injection h with h2
                subst h2
                exact ⟨rfl, "Insert failed for ", ": " ++ e, by simp [String.append_assoc]⟩
              · exact Option.noConfusion h
  exact ⟨key.1, key.2, Orchestrator.foldl_processUrl_counts st⟩

/-- C4 (witness): a concrete fetch-stage exception is recorded as one error
entry containing the URL, bumps `urls_failed` by one, and the loop
accounting holds. -/
theorem c4_stage_isolation_witness :
    Orchestrator.raisesAt
        ⟨fun _ => Except.error "boom", fun _ => Except.error "boom",
         fun _ => Except.error "boom", fun _ _ => Except.error "boom"⟩
        "https://u.example"
      = some "Fetch failed for https://u.example: boom"
    ∧ (Orchestrator.processUrl
          ⟨fun _ => Except.error "boom", fun _ => Except.error "boom",
           fun _ => Except.error "boom", fun _ _ => Except.error "boom"⟩
          (Orchestrator.initReport "https://seed.example") "https://u.example"
        = { Orchestrator.initReport "https://seed.example" with
              urls_failed := (Orchestrator.initReport "https://seed.example").urls_failed + 1
              errors := (Orchestrator.initReport "https://seed.example").errors
                ++ ["Fetch failed for https://u.example: boom"] }
      ∧ (∃ a b, "Fetch failed for https://u.example: boom"
            = a ++ "https://u.example" ++ b)
      ∧ ∀ (urls : List String) (r0 : Orchestrator.Report),
          (urls.foldl (Orchestrator.processUrl
              ⟨fun _ => Except.error "boom", fun _ => Except.error "boom",
               fun _ => Except.error "boom", fun _ _ => Except.error "boom"⟩) r0).urls_processed
              + (urls.foldl (Orchestrator.processUrl
                  ⟨fun _ => Except.error "boom", fun _ => Except.error "boom",
                   fun _ => Except.error "boom", fun _ _ => Except.error "boom"⟩) r0).urls_failed
            = r0.urls_processed + r0.urls_failed + urls.length) :=
  ⟨rfl, c4_stage_isolation _ (Orchestrator.initReport "https://seed.example")
    "https://u.example" "Fetch failed for https://u.example: boom" rfl⟩

namespace Crawler

/-- crawler.py configuration constants. -/
def MAX_PAGES : Nat := 100

/-- How many links deep to follow from the seed URL. -/
def MAX_DEPTH : Nat := 3

/-- `SKIP_EXTENSIONS` of crawler.py. -/
def SKIP_EXTENSIONS : List String :=
  [".pdf", ".jpg", ".jpeg", ".png", ".gif", ".svg", ".webp",
   ".mp4", ".mp3", ".zip", ".tar", ".gz", ".exe", ".css", ".js"]

/-- `SKIP_PATTERNS` of crawler.py, in source order (note the bare "?"
entry). -/
def SKIP_PATTERNS : List String :=
  ["/tag/", "/category/", "/author/", "/page/\\d+",
   "?", "#", "/feed/", "/wp-", "/cdn-cgi/"]

/-- Substring containment on strings (Python `pattern in s` semantics,
used to model `re.search` on regex-free patterns). -/
def strContains (s pat : String) : Bool :=
  decide (pat.toList <:+: s.toList)

/-- Suffix test on strings (Python `str.endswith`). -/
def strEndsWith (s pat : String) : Bool :=
  pat.toList.isSuffixOf s.toList

/-- Python `str.lower()` (ASCII case folding suffices for the URLs here). -/
def lowerStr (s : String) : String :=
  String.mk (s.toList.map Char.toLower)

/-- Whether the regex `/page/\d+` matches somewhere in `s`: an occurrence of
"/page/" followed by at least one digit. -/
def pageRegexHit (s : String) : Bool :=
  s.toList.tails.any (fun t =>
    ("/page/".toList.isPrefixOf t)
      && (match t.drop 6 with
          | c :: _ => c.isDigit
          | [] => false))

/-- Modelled from Python's `re.search(pattern, s)` restricted to the
patterns occurring in `SKIP_PATTERNS`: all entries except two are
regex-literal strings (substring search); `/page/\d+` matches "/page/"
followed by a digit; and the bare "?" is not a valid regular expression —
a quantifier with nothing to repeat — so `re.search` raises `re.error`,
modelled as `Except.error`. -/
def reSearch (pattern s : String) : Except Unit Bool :=
  if pattern = "?" then Except.error ()
  else if pattern = "/page/\\d+" then Except.ok (pageRegexHit s)
  else Except.ok (strContains s pattern)

/-- The `any(re.search(pattern, full_url) for pattern in SKIP_PATTERNS)`
generator: patterns are tried left to right; a raised `re.error`
propagates. -/
def patternScan (s : String) : List String → Except Unit Bool
  | [] => Except.ok false
  | p :: rest =>
    match reSearch p s with
    | Except.error e => Except.error e
    | Except.ok true => Except.ok true
    | Except.ok false => patternScan s rest

/-- The `scheme`, `netloc` and `path` fields read by the crawler. -/
structure ParsedUrl where
  scheme : String
  netloc : String
  path : String
deriving Repr, DecidableEq

/-- Helper for `urlparse`: split a character list at the first "://". -/
def splitSchemeAux : List Char → List Char → Option (List Char × List Char)
  | _, [] => none
  | acc, ':' :: '/' :: '/' :: rest => some (acc.reverse, rest)
  | acc, c :: rest => splitSchemeAux (c :: acc) rest

/-- Modelled from Python's `urllib.parse.urlparse`, for the three fields
the crawler reads: the scheme before "://" (lowercased), the network
location up to the next "/", "?" or "#", and the path up to the query or
fragment delimiter. -/
def urlparse (url : String) : ParsedUrl :=
  match splitSchemeAux [] url.toList with
  | none =>
    { scheme := "", netloc := ""
      path := String.mk (url.toList.takeWhile (fun c => !(c == '?') && !(c == '#'))) }
  | some (sch, rest) =>
    let host := rest.takeWhile (fun c => !(c == '/') && !(c == '?') && !(c == '#'))
    let tail := rest.drop host.length
    { scheme := String.mk (sch.map Char.toLower)
      netloc := String.mk host
      path := String.mk (tail.takeWhile (fun c => !(c == '?') && !(c == '#'))) }

/-- `_is_valid_url` of crawler.py: scheme, domain and extension checks,
then the pattern scan; any exception inside the `try` body — including the
`re.error` raised for the invalid "?" pattern — hits the
`except Exception: return False` handler. -/
def isValidUrl (url base_domain : String) : Bool :=
  let parsed := urlparse url
  if ¬(parsed.scheme = "http" ∨ parsed.scheme = "https") then false
  else if parsed.netloc ≠ base_domain then false
  else if SKIP_EXTENSIONS.any (fun ext => strEndsWith (lowerStr parsed.path) ext) then false
  else
    match patternScan (lowerStr url) SKIP_PATTERNS with
    | Except.error _ => false
    | Except.ok true => false
    | Except.ok false => true

/-- Modelled from the spec: the filter `_is_valid_url` documents — accept
exactly the http(s), same-domain URLs without a denylisted extension and
with no skip pattern occurring in the lowercased URL, the "?" and "#"
entries applied as substring matches (spec section 9, design note). -/
def isValidUrlSpec (url base_domain : String) : Bool :=
  let parsed := urlparse url
  ((parsed.scheme == "http") || (parsed.scheme == "https"))
    && (parsed.netloc == base_domain)
    && !(SKIP_EXTENSIONS.any (fun ext => strEndsWith (lowerStr parsed.path) ext))
    && !(SKIP_PATTERNS.any (fun pat =>
          if pat = "/page/\\d+" then pageRegexHit (lowerStr url)
          else strContains (lowerStr url) pat))

/-- Scanning a pattern list containing the invalid "?" regex can never
report "no pattern matched": it either hits an earlier pattern or raises. -/
theorem patternScan_no_false (s : String) :
    ∀ pats : List String, "?" ∈ pats → patternScan s pats ≠ Except.ok false := by
  intro pats
  induction pats with
  | nil => intro hmem; cases hmem
  | cons p rest ih =>
    intro hmem
    unfold patternScan
    rcases hre : reSearch p s with e | b
    · simp
    · cases b
      · simp only []
        rcases List.mem_cons.mp hmem with h | h
        · exfalso
          rw [← h] at hre
          simp [reSearch] at hre
        · exact ih h
      · simp

end Crawler

/-- C5: the URL filter of crawler.py rejects every URL whatsoever — the
bare "?" entry of `SKIP_PATTERNS` is an invalid regular expression, so
`re.search` raises `re.error` on any URL that survives the four patterns
before it, and the catch-all handler turns that into `False`.  A URL
passing every documented filter (http(s), same domain, clean extension, no
skip pattern) is nevertheless rejected, while the documented filter accepts
it. -/
theorem c5_filter_rejects_everything :
    (∀ url base_domain, Crawler.isValidUrl url base_domain = false)
    ∧ Crawler.isValidUrlSpec "https://example.com/about" "example.com" = true := by
  constructor
  · intro url base_domain
    rcases hps : Crawler.patternScan (Crawler.lowerStr url) Crawler.SKIP_PATTERNS
      with e | b
    · simp [Crawler.isValidUrl, hps]
    · cases b
      · exact absurd hps
          (Crawler.patternScan_no_false (Crawler.lowerStr url)
            Crawler.SKIP_PATTERNS (by decide))
      · simp [Crawler.isValidUrl, hps]
  · decide

namespace Crawler

/-- The crawl working state: the visited set (a duplicate-free list), the
ordered discovered list, and the FIFO frontier of (url, depth) pairs. -/
structure CrawlState where
  visited : List String
  discovered : List String
  queue : List (String × Nat)
deriving Repr, DecidableEq

/-- The enqueue loop of `crawl`: `for link in sorted(new_links): if link not
in [q[0] for q in queue]: queue.append((link, depth + 1))`. -/
def enqueueChildren (links : List String) (q : List (String × Nat)) (d : Nat) :
    List (String × Nat) :=
  links.foldl
    (fun q2 link => if (q2.map Prod.fst).contains link then q2 else q2 ++ [(link, d)])
    q

/-- `new_links` of one iteration: the link set extracted from the fetched
page (the oracle `extract` stands for `_extract_links`, which returns a
set, hence `dedup`), minus the visited set, in sorted order for
deterministic crawling. -/
def newLinks (extract : String → String → List String) (visited' : List String)
    (html u : String) : List String :=
  List.insertionSort (fun a b => a ≤ b)
    (((extract html u).dedup).filter (fun v => !(visited'.contains v)))

/-- One iteration of the `while queue and len(discovered) < MAX_PAGES` loop
of `crawl`: exit conditions, visited check, fetch (oracle), discovery
append, and child enqueueing below the depth cap.  `Sum.inl` is loop exit
with the final (discovered, visited). -/
def crawlStep (fetch : String → Option String) (extract : String → String → List String)
    (s : CrawlState) : (List String × List String) ⊕ CrawlState :=
  match s.queue with
  | [] => Sum.inl (s.discovered, s.visited)
  | (u, d) :: rest =>
    if MAX_PAGES ≤ s.discovered.length then Sum.inl (s.discovered, s.visited)
    else if u ∈ s.visited then Sum.inr { s with queue := rest }
    else
      let visited' := u :: s.visited
      match fetch u with
      | none => Sum.inr { visited := visited', discovered := s.discovered, queue := rest }
      | some html =>
        if d < MAX_DEPTH then
          Sum.inr { visited := visited'
                    discovered := s.discovered ++ [u]
                    queue := enqueueChildren (newLinks extract visited' html u) rest (d + 1) }
        else
          Sum.inr { visited := visited', discovered := s.discovered ++ [u], queue := rest }

/-- The crawl loop, indexed by the number of remaining iterations; `none`
means the iteration budget ran out before the loop exited (claim C8 shows a
sufficient budget always exists). -/
def crawlLoop (fetch : String → Option String) (extract : String → String → List String) :
    Nat → CrawlState → Option (List String × List String)
  | 0, _ => none
  | fuel + 1, s =>
    match crawlStep fetch extract s with
    | Sum.inl r => some r
    | Sum.inr s2 => crawlLoop fetch extract fuel s2

/-- Python `seed_url.rstrip("/")`. -/
def rstripSlash (s : String) : String :=
  String.mk ((s.toList.reverse.dropWhile (fun c => c == '/')).reverse)

/-- The initial crawl state: frontier holding the stripped seed at depth 0. -/
def initState (seed_url : String) : CrawlState :=
  { visited := [], discovered := [], queue := [(rstripSlash seed_url, 0)] }

/-- `crawl` of crawler.py: `ValueError` for a seed without scheme or host,
then the bounded breadth-first loop returning the discovered list. -/
def crawl (fetch : String → Option String) (extract : String → String → List String)
    (fuel : Nat) (seed_url : String) : Except String (Option (List String)) :=
  let parsed := urlparse seed_url
  if parsed.scheme = "" ∨ parsed.netloc = "" then
    Except.error ("Invalid seed URL: " ++ seed_url)
  else
    Except.ok ((crawlLoop fetch extract fuel (initState seed_url)).map Prod.fst)

/-- The loop invariant for claim C3. -/
def CrawlInv (s : CrawlState) : Prop :=
  s.discovered.length ≤ MAX_PAGES
    ∧ s.discovered.length ≤ s.visited.length
    ∧ s.discovered.Nodup
    ∧ ∀ u ∈ s.discovered, u ∈ s.visited

/-- `crawlStep` preserves the invariant on a continuing state. -/
theorem crawlStep_inv (fetch : String → Option String)
    (extract : String → String → List String) (s s2 : CrawlState)
    (hinv : CrawlInv s) (h : crawlStep fetch extract s = Sum.inr s2) :
    CrawlInv s2 := by
  obtain ⟨hcap, hlen, hnd, hsub⟩ := hinv
  unfold crawlStep at h
  split at h
  · exact Sum.noConfusion h
  · next u d rest hq =>
    split at h
    · exact Sum.noConfusion h
    · split at h
      · next hvis =>
        injection h with h2
        subst h2
        exact ⟨hcap, hlen, hnd, hsub⟩
      · next hvis =>
        rcases hf : fetch u with _ | html <;> simp only [hf] at h
        · injection h with h2
          subst h2
          refine ⟨hcap, by simp; omega, hnd, ?_⟩
          intro v hv
          exact List.mem_cons_of_mem u (hsub v hv)
        · next hcapNot =>
          have hlt : s.discovered.length < MAX_PAGES := by
            rename_i hcapNot2
            omega
          have hnotdisc : u ∉ s.discovered := fun hc => hvis (hsub u hc)
          split at h <;>
          · injection h with h2
            subst h2
            refine ⟨by simp; omega, by simp; omega, ?_, ?_⟩
            · simp [List.nodup_append, hnd, hnotdisc]
            · intro v hv
              rcases List.mem_append.mp hv with hv | hv
              · exact List.mem_cons_of_mem u (hsub v hv)
              · simp at hv
                simp [hv]

/-- The C3 invariants hold of every state the loop can return. -/
theorem crawlLoop_inv (fetch : String → Option String)
    (extract : String → String → List String) :
    ∀ (fuel : Nat) (s : CrawlState) (disc vis : List String),
      CrawlInv s → crawlLoop fetch extract fuel s = some (disc, vis) →
      disc.length ≤ MAX_PAGES ∧ disc.length ≤ vis.length ∧ disc.Nodup := by
  intro fuel
  induction fuel with
  | zero => intro s disc vis _ h; exact Option.noConfusion h
  | succ n ih =>
    intro s disc vis hinv h
    unfold crawlLoop at h
    rcases hstep : crawlStep fetch extract s with r | s2 <;> rw [hstep] at h
    · -- loop exited: the result is (s.discovered, s.visited)
      have hr : r = (s.discovered, s.visited) := by
        unfold crawlStep at hstep
        split at hstep
        · injection hstep with h2
          exact h2.symm
        · split at hstep
          · injection hstep with h2
            exact h2.symm
          · split at hstep
            · exact Sum.noConfusion hstep
            · split at hstep
              · exact Sum.noConfusion hstep
              · split at hstep <;> exact Sum.noConfusion hstep
      injection h with h2
      rw [hr] at h2
      cases h2
      obtain ⟨hcap, hlen, hnd, _⟩ := hinv
      exact ⟨hcap, hlen, hnd⟩
    · exact ih s2 disc vis (crawlStep_inv fetch extract s s2 hinv hstep) h

end Crawler

/-- C3: whenever the crawl loop returns from the seed's initial state, the
discovered list has at most MAX_PAGES entries, the visited set has at least
as many elements as the discovered list, and no URL appears twice in the
discovered list. -/
theorem c3_crawl_invariants (fetch : String → Option String)
    (extract : String → String → List String) (fuel : Nat) (seed : String)
    (disc vis : List String)
    (h : Crawler.crawlLoop fetch extract fuel (Crawler.initState seed) = some (disc, vis)) :
    disc.length ≤ Crawler.MAX_PAGES ∧ disc.length ≤ vis.length ∧ disc.Nodup :=
  Crawler.crawlLoop_inv fetch extract fuel (Crawler.initState seed) disc vis
    ⟨by simp [Crawler.initState, Crawler.MAX_PAGES], by simp [Crawler.initState],
     by simp [Crawler.initState], by simp [Crawler.initState]⟩ h

/-- C3 (witness): a crawl whose only fetch fails returns an empty
discovered list having visited just the seed. -/
theorem c3_crawl_invariants_witness :
    Crawler.crawlLoop (fun _ => none) (fun _ _ => []) 2
        (Crawler.initState "https://a.example")
      = some ([], ["https://a.example"])
    ∧ ([] : List String).length ≤ Crawler.MAX_PAGES
      ∧ ([] : List String).length ≤ ["https://a.example"].length
      ∧ ([] : List String).Nodup :=
  ⟨by decide,
   c3_crawl_invariants (fun _ => none) (fun _ _ => []) 2 "https://a.example"
     [] ["https://a.example"] (by decide)⟩

namespace Crawler

/-- Termination measure ingredient: an upper bound on the number of frontier
entries a page can still spawn within the remaining depth budget — one per
extracted link plus that link's own weight one budget level down. -/
def linkWeight (fetch : String → Option String) (extract : String → String → List String) :
    Nat → String → Nat
  | 0, _ => 0
  | b + 1, u =>
    match fetch u with
    | none => 0
    | some html => ((extract html u).map (fun v => 1 + linkWeight fetch extract b v)).sum

/-- Weight of one frontier entry: 1 for its pop plus, if it is not yet
visited, the weight of the subtree it can spawn (depth budget
`MAX_DEPTH - depth`). -/
def entryWeight (fetch : String → Option String) (extract : String → String → List String)
    (visited : List String) (e : String × Nat) : Nat :=
  1 + (if e.1 ∈ visited then 0 else linkWeight fetch extract (MAX_DEPTH - e.2) e.1)

/-- Total weight of the frontier: the termination measure of the crawl
loop. -/
def queueWeight (fetch : String → Option String) (extract : String → String → List String)
    (visited : List String) (q : List (String × Nat)) : Nat :=
  (q.map (entryWeight fetch extract visited)).sum

theorem queueWeight_cons (fetch : String → Option String)
    (extract : String → String → List String) (visited : List String)
    (e : String × Nat) (q : List (String × Nat)) :
    queueWeight fetch extract visited (e :: q)
      = entryWeight fetch extract visited e + queueWeight fetch extract visited q := by
  simp [queueWeight]

theorem queueWeight_append (fetch : String → Option String)
    (extract : String → String → List String) (visited : List String)
    (q1 q2 : List (String × Nat)) :
    queueWeight fetch extract visited (q1 ++ q2)
      = queueWeight fetch extract visited q1 + queueWeight fetch extract visited q2 := by
  simp [queueWeight]

theorem entryWeight_pos (fetch : String → Option String)
    (extract : String → String → List String) (visited : List String)
    (e : String × Nat) : 1 ≤ entryWeight fetch extract visited e := by
  unfold entryWeight
  omega

/-- Growing the visited set can only shrink an entry's weight. -/
theorem entryWeight_visited_mono (fetch : String → Option String)
    (extract : String → String → List String) (u : String) (visited : List String)
    (e : String × Nat) :
    entryWeight fetch extract (u :: visited) e ≤ entryWeight fetch extract visited e := by
  unfold entryWeight
  by_cases h : e.1 ∈ visited
  · simp [h, List.mem_cons]
  · by_cases h2 : e.1 ∈ u :: visited
    · simp only [h, h2, if_true, if_false, ite_true, ite_false]
      omega
    · simp [h, h2]

/-- Growing the visited set can only shrink the frontier weight. -/
theorem queueWeight_visited_mono (fetch : String → Option String)
    (extract : String → String → List String) (u : String) (visited : List String) :
    ∀ q : List (String × Nat),
      queueWeight fetch extract (u :: visited) q ≤ queueWeight fetch extract visited q := by
  intro q
  induction q with
  | nil => simp [queueWeight]
  | cons e q ih =>
    rw [queueWeight_cons, queueWeight_cons]
    have := entryWeight_visited_mono fetch extract u visited e
    omega

theorem mapSum_le_of_sublist (g : String → Nat) {l1 l2 : List String}
    (h : List.Sublist l1 l2) :
    (l1.map g).sum ≤ (l2.map g).sum := by
  induction h with
  | slnil => simp
  | cons a h ih => simp only [List.map_cons, List.sum_cons]; omega
  | cons₂ a h ih => simp only [List.map_cons, List.sum_cons]; omega

theorem mapSum_le_pointwise {l : List String} (g1 g2 : String → Nat)
    (h : ∀ v ∈ l, g1 v ≤ g2 v) : (l.map g1).sum ≤ (l.map g2).sum := by
  induction l with
  | nil => simp
  | cons a l ih =>
    simp only [List.map_cons, List.sum_cons]
    have h1 := h a (List.mem_cons_self a l)
    have h2 := ih (fun v hv => h v (List.mem_cons_of_mem a hv))
    omega

/-- The enqueue loop adds at most the weight of the offered links. -/
theorem enqueueChildren_weight (fetch : String → Option String)
    (extract : String → String → List String) (visited : List String) (d' : Nat) :
    ∀ (links : List String) (q : List (String × Nat)),
      queueWeight fetch extract visited (enqueueChildren links q d')
        ≤ queueWeight fetch extract visited q
          + (links.map (fun v => entryWeight fetch extract visited (v, d'))).sum := by
  intro links
  induction links with
  | nil => intro q; simp [enqueueChildren]
  | cons l ls ih =>
    intro q
    simp only [enqueueChildren, List.foldl_cons]
    have h1 := ih (if ((q.map Prod.fst).contains l) then q else q ++ [(l, d')])
    simp only [enqueueChildren] at h1
    have h0 : queueWeight fetch extract visited
        (if ((q.map Prod.fst).contains l) then q else q ++ [(l, d')])
        ≤ queueWeight fetch extract visited q + entryWeight fetch extract visited (l, d') := by
      split
      · omega
      · rw [queueWeight_append]
        simp [queueWeight]
    simp only [List.map_cons, List.sum_cons]
    omega

/-- Sorting, deduplicating and visited-filtering the extracted links can
only shrink their total weight. -/
theorem newLinks_sum_le (fetch : String → Option String)
    (extract : String → String → List String) (visited' : List String)
    (html u : String) (g : String → Nat) :
    ((newLinks extract visited' html u).map g).sum ≤ ((extract html u).map g).sum := by
  unfold newLinks
  have hperm : List.Perm
      (List.insertionSort (fun a b => a ≤ b)
        (((extract html u).dedup).filter (fun v => !(visited'.contains v))))
      (((extract html u).dedup).filter (fun v => !(visited'.contains v))) :=
    List.perm_insertionSort _ _
  have h1 := (hperm.map g).sum_eq
  rw [h1]
  have h2 : List.Sublist
      (((extract html u).dedup).filter (fun v => !(visited'.contains v)))
      (extract html u) :=
    (List.filter_sublist _).trans (List.dedup_sublist _)
  exact mapSum_le_of_sublist g h2

/-- Every link returned by `newLinks` is unvisited. -/
theorem newLinks_not_visited (extract : String → String → List String)
    (visited' : List String) (html u v : String)
    (h : v ∈ newLinks extract visited' html u) : v ∉ visited' := by
  unfold newLinks at h
  have h1 := (List.perm_insertionSort (fun a b => a ≤ b) _).mem_iff.mp h
  have h2 := List.of_mem_filter h1
  simpa using h2

/-- Every continuing step of the crawl loop strictly decreases the frontier
weight. -/
theorem crawlStep_decrease (fetch : String → Option String)
    (extract : String → String → List String) (s s2 : CrawlState)
    (h : crawlStep fetch extract s = Sum.inr s2) :
    queueWeight fetch extract s2.visited s2.queue
      < queueWeight fetch extract s.visited s.queue := by
  unfold crawlStep at h
  split at h
  · exact Sum.noConfusion h
  · next u d rest hq =>
    split at h
    · exact Sum.noConfusion h
    · split at h
      · next hvis =>
        injection h with h2
        subst h2
        dsimp only
        rw [hq, queueWeight_cons]
        have := entryWeight_pos fetch extract s.visited (u, d)
        omega
      · next hvis =>
        split at h
        · next heq =>
          injection h with h2
          subst h2
          dsimp only
          rw [hq, queueWeight_cons]
          have hm := queueWeight_visited_mono fetch extract u s.visited rest
          have := entryWeight_pos fetch extract s.visited (u, d)
          omega
        · next html heq =>
          split at h
          · next hd =>
            injection h with h2
            subst h2
            dsimp only
            rw [hq, queueWeight_cons]
            have h1 := enqueueChildren_weight fetch extract (u :: s.visited) (d + 1)
              (newLinks extract (u :: s.visited) html u) rest
            have h2 := queueWeight_visited_mono fetch extract u s.visited rest
            have h3 : ((newLinks extract (u :: s.visited) html u).map
                  (fun v => entryWeight fetch extract (u :: s.visited) (v, d + 1))).sum
                ≤ ((newLinks extract (u :: s.visited) html u).map
                  (fun v => 1 + linkWeight fetch extract (MAX_DEPTH - (d + 1)) v)).sum := by
              apply mapSum_le_pointwise
              intro v _
              unfold entryWeight
              dsimp only
              split <;> omega
            have h4 := newLinks_sum_le fetch extract (u :: s.visited) html u
              (fun v => 1 + linkWeight fetch extract (MAX_DEPTH - (d + 1)) v)
            have h5 : ((extract html u).map
                  (fun v => 1 + linkWeight fetch extract (MAX_DEPTH - (d + 1)) v)).sum
                = linkWeight fetch extract (MAX_DEPTH - d) u := by
              have hb : MAX_DEPTH - d = (MAX_DEPTH - (d + 1)) + 1 := by
                unfold MAX_DEPTH at hd ⊢
                omega
              rw [hb]
              simp [linkWeight, heq]
            have h6 : entryWeight fetch extract s.visited (u, d)
                = 1 + linkWeight fetch extract (MAX_DEPTH - d) u := by
              unfold entryWeight
              simp [hvis]
            omega
          · next hd =>
            injection h with h2
            subst h2
            dsimp only
            rw [hq, queueWeight_cons]
            have hm := queueWeight_visited_mono fetch extract u s.visited rest
            have := entryWeight_pos fetch extract s.visited (u, d)
            omega

/-- Any iteration budget exceeding the initial frontier weight lets the
crawl loop run to completion. -/
theorem crawlLoop_term (fetch : String → Option String)
    (extract : String → String → List String) :
    ∀ (fuel : Nat) (s : CrawlState),
      queueWeight fetch extract s.visited s.queue < fuel →
      ∃ r, crawlLoop fetch extract fuel s = some r := by
  intro fuel
  induction fuel with
  | zero => intro s h; omega
  | succ n ih =>
    intro s h
    rcases hstep : crawlStep fetch extract s with r | s2
    · refine ⟨r, ?_⟩
      unfold crawlLoop
      rw [hstep]
    · have hdec := crawlStep_decrease fetch extract s s2 hstep
      obtain ⟨r, hr⟩ := ih s2 (by omega)
      refine ⟨r, ?_⟩
      unfold crawlLoop
      rw [hstep]
      exact hr

/-- Everything a continuing step leaves in the frontier is either an old
entry or a child of the popped entry: enqueued one level deeper and not yet
visited, and only while the popped depth is below the cap. -/
theorem enqueueChildren_mem (d' : Nat) :
    ∀ (links : List String) (q : List (String × Nat)) (e : String × Nat),
      e ∈ enqueueChildren links q d' → e ∈ q ∨ (e.1 ∈ links ∧ e.2 = d') := by
  intro links
  induction links with
  | nil =>
    intro q e h
    simp only [enqueueChildren, List.foldl_nil] at h
    exact Or.inl h
  | cons l ls ih =>
    intro q e h
    simp only [enqueueChildren, List.foldl_cons] at h
    have h2 := ih (if ((q.map Prod.fst).contains l) then q else q ++ [(l, d')]) e
      (by simpa [enqueueChildren] using h)
    rcases h2 with h2 | h2
    · by_cases hc : (q.map Prod.fst).contains l
      · rw [if_pos hc] at h2
        exact Or.inl h2
      · rw [if_neg hc] at h2
        rcases List.mem_append.mp h2 with h3 | h3
        · exact Or.inl h3
        · simp only [List.mem_singleton] at h3
          subst h3
          exact Or.inr ⟨List.mem_cons_self l ls, rfl⟩
    · exact Or.inr ⟨List.mem_cons_of_mem l h2.1, h2.2⟩

end Crawler

/-- C8: for every seed URL with a scheme and host, and any fetch/extract
collaborators (each page yields a finite link list), the crawl loop
terminates — an iteration budget exists under which `crawl` returns a
discovered list — and the frontier only grows by unvisited URLs enqueued at
depth+1 while the popped depth is below the depth cap. -/
theorem c8_crawl_terminates (fetch : String → Option String)
    (extract : String → String → List String) (seed : String)
    (hscheme : (Crawler.urlparse seed).scheme ≠ "")
    (hhost : (Crawler.urlparse seed).netloc ≠ "") :
    (∃ fuel disc, Crawler.crawl fetch extract fuel seed = Except.ok (some disc))
    ∧ (∀ (s s2 : Crawler.CrawlState) (u : String) (d : Nat)
          (rest : List (String × Nat)),
        s.queue = (u, d) :: rest →
        Crawler.crawlStep fetch extract s = Sum.inr s2 →
        ∀ e ∈ s2.queue,
          e ∈ rest ∨ (d < Crawler.MAX_DEPTH ∧ e.2 = d + 1 ∧ ¬ e.1 ∈ s2.visited)) := by
  constructor
  · obtain ⟨r, hr⟩ := Crawler.crawlLoop_term fetch extract
      (Crawler.queueWeight fetch extract (Crawler.initState seed).visited
        (Crawler.initState seed).queue + 1)
      (Crawler.initState seed) (by omega)
    refine ⟨Crawler.queueWeight fetch extract (Crawler.initState seed).visited
        (Crawler.initState seed).queue + 1, r.1, ?_⟩
    unfold Crawler.crawl
    rw [if_neg (by
      intro hor
      rcases hor with h | h
      · exact hscheme h
      · exact hhost h)]
    rw [hr]
    rfl
  · intro s s2 u d rest hq hstep e he
    unfold Crawler.crawlStep at hstep
    simp only [hq] at hstep
    split at hstep
    · exact Sum.noConfusion hstep
    · split at hstep
      · next hvis =>
        injection hstep with h2
        subst h2
        exact Or.inl he
      · next hvis =>
        split at hstep
        · next heq =>
          injection hstep with h2
          subst h2
          exact Or.inl he
        · next html heq =>
          split at hstep
          · next hd =>
            injection hstep with h2
            subst h2
            dsimp only at he
            rcases Crawler.enqueueChildren_mem (d + 1)
                (Crawler.newLinks extract (u :: s.visited) html u) rest e he
              with h | h
            · exact Or.inl h
            · refine Or.inr ⟨hd, h.2, ?_⟩
              have hnv := Crawler.newLinks_not_visited extract (u :: s.visited)
                html u e.1 h.1
              exact hnv
          · next hd =>
            injection hstep with h2
            subst h2
            exact Or.inl he

/-- C8 (witness): a concrete crawl from a valid seed whose fetches all fail
terminates, and the frontier-growth discipline holds for it. -/
theorem c8_crawl_terminates_witness :
    (Crawler.urlparse "http://a.example").scheme ≠ ""
    ∧ (Crawler.urlparse "http://a.example").netloc ≠ ""
    ∧ ((∃ fuel disc,
          Crawler.crawl (fun _ => none) (fun _ _ => []) fuel "http://a.example"
            = Except.ok (some disc))
       ∧ (∀ (s s2 : Crawler.CrawlState) (u : String) (d : Nat)
             (rest : List (String × Nat)),
           s.queue = (u, d) :: rest →
           Crawler.crawlStep (fun _ => none) (fun _ _ => []) s = Sum.inr s2 →
           ∀ e ∈ s2.queue,
             e ∈ rest ∨ (d < Crawler.MAX_DEPTH ∧ e.2 = d + 1 ∧ ¬ e.1 ∈ s2.visited))) :=
  ⟨by decide, by decide,
   c8_crawl_terminates (fun _ => none) (fun _ _ => []) "http://a.example"
     (by decide) (by decide)⟩

namespace Provider

/-- Outcome of one attempt against one backend: success, a transient
connect/timeout error, or a non-transient (quota/auth/bad-request style)
error.  The oracle maps backend and attempt number to the outcome. -/
inductive Outcome where
  | success (resp : String)
  | transient (msg : String)
  | fatal (msg : String)
deriving Repr, DecidableEq

/-- `_dispatch_call` under its tenacity decorator
(`stop_after_attempt(2)`, retry only on `httpx.ConnectError` /
`httpx.TimeoutException`, `reraise=True`): at most two attempts on one
backend, a second attempt only after a transient first error, any error of
the final attempt re-raised.  Returns the result together with the number
of attempts made. -/
def dispatchCall (f : String → Nat → Outcome) (p : String) :
    Except String String × Nat :=
  match f p 1 with
  | Outcome.success r => (Except.ok r, 1)
  | Outcome.fatal m => (Except.error m, 1)
  | Outcome.transient _ =>
    match f p 2 with
    | Outcome.success r => (Except.ok r, 2)
    | Outcome.fatal m => (Except.error m, 2)
    | Outcome.transient m => (Except.error m, 2)

/-- Result of `call_model` plus, for each backend dispatched, how many
attempts were spent on it (in dispatch order). -/
structure CallResult where
  response : String
  attempts : List (String × Nat)
deriving Repr, DecidableEq

/-- The fallback loop of `call_model`: backends tried in order, every
exception caught (`except Exception: ... continue`) with `last_error`
updated, and on exhaustion the terminal failure string returned as a plain
value. -/
def callModelGo (f : String → Nat → Outcome) : List String → String → CallResult
  | [], lastError =>
    { response := "Service temporarily unavailable. (Last error: " ++ lastError ++ ")"
      attempts := [] }
  | p :: rest, lastError =>
    match dispatchCall f p with
    | (Except.ok r, n) => { response := r, attempts := [(p, n)] }
    | (Except.error m, n) =>
      { callModelGo f rest m with
          attempts := (p, n) :: (callModelGo f rest m).attempts }

/-- `ProviderLayer.call_model`: an empty available-provider list
short-circuits with the offline message; otherwise the fallback loop runs
with `last_error = ""`. -/
def callModel (f : String → Nat → Outcome) (providers : List String) : CallResult :=
  if providers = [] then
    { response := "Error: All providers offline or out of quota.", attempts := [] }
  else callModelGo f providers ""

theorem dispatchCall_le_two (f : String → Nat → Outcome) (p : String) :
    (dispatchCall f p).2 ≤ 2 := by
  rcases h1 : f p 1 with r | m | m
  · simp [dispatchCall, h1]
  · rcases h2 : f p 2 with r | m2 | m2 <;> simp [dispatchCall, h1, h2]
  · simp [dispatchCall, h1]

/-- A non-transient first error ends the backend's dispatch after one
attempt, re-raising that error. -/
theorem dispatchCall_fatal (f : String → Nat → Outcome) (p m : String)
    (h : f p 1 = Outcome.fatal m) : dispatchCall f p = (Except.error m, 1) := by
  simp [dispatchCall, h]

/-- No backend is ever attempted more than twice. -/
theorem callModelGo_attempts_le (f : String → Nat → Outcome) :
    ∀ (ps : List String) (lastError : String) (pn : String × Nat),
      pn ∈ (callModelGo f ps lastError).attempts → pn.2 ≤ 2 := by
  intro ps
  induction ps with
  | nil =>
    intro lastError pn h
    simp [callModelGo] at h
  | cons p rest ih =>
    intro lastError pn h
    unfold callModelGo at h
    rcases hd : dispatchCall f p with ⟨res, n⟩
    have hn : n ≤ 2 := by
      have h2 := dispatchCall_le_two f p
      rw [hd] at h2
      exact h2
    rcases res with m | r <;> rw [hd] at h <;> simp only [List.mem_singleton,
      List.mem_cons] at h
    · rcases h with h | h
      · subst h
        exact hn
      · exact ih m pn h
    · rcases h with h | h
      · subst h
        exact hn
      · simp at h

/-- When every backend's first attempt raises a non-transient error, the
loop spends exactly one attempt per backend and ends with the terminal
failure message carrying the last backend's error text. -/
theorem callModelGo_all_fatal (f : String → Nat → Outcome) (err : String → String) :
    ∀ (ps : List String) (hne : ps ≠ []) (lastError : String),
      (∀ p ∈ ps, f p 1 = Outcome.fatal (err p)) →
      callModelGo f ps lastError
        = { response := "Service temporarily unavailable. (Last error: "
              ++ err (ps.getLast hne) ++ ")"
            attempts := ps.map (fun p => (p, 1)) } := by
  intro ps
  induction ps with
  | nil => intro hne; exact absurd rfl hne
  | cons p rest ih =>
    intro hne lastError hf
    have hfp := hf p (List.mem_cons_self p rest)
    have hd := dispatchCall_fatal f p (err p) hfp
    rcases Decidable.em (rest = []) with hr | hr
    · subst hr
      unfold callModelGo
      rw [hd]
      simp [callModelGo]
    · have ihr := ih hr (err p) (fun q hq => hf q (List.mem_cons_of_mem p hq))
      unfold callModelGo
      rw [hd]
      dsimp only
      rw [ihr]
      have hgl : (p :: rest).getLast hne = rest.getLast hr := List.getLast_cons hr
      simp [hgl]

end Provider

/-- C6: if every available backend fails with a non-transient error, the
router's `call()` returns a terminal failure value — not an exception —
whose text contains the last backend's error text; no backend is retried
after a non-transient error (one attempt each), and in general no backend
is ever attempted more than the configured bound of two attempts. -/
theorem c6_router_exhaustion (f : String → Nat → Provider.Outcome)
    (providers : List String) (err : String → String)
    (hne : providers ≠ [])
    (hf : ∀ p ∈ providers, f p 1 = Provider.Outcome.fatal (err p)) :
    (Provider.callModel f providers).response
        = "Service temporarily unavailable. (Last error: "
            ++ err (providers.getLast hne) ++ ")"
    ∧ (Provider.callModel f providers).attempts
        = providers.map (fun p => (p, 1))
    ∧ ∀ (g : String → Nat → Provider.Outcome) (qs : List String)
        (lastError : String) (pn : String × Nat),
        pn ∈ (Provider.callModelGo g qs lastError).attempts → pn.2 ≤ 2 := by
  have h := Provider.callModelGo_all_fatal f err providers hne "" hf
  unfold Provider.callModel
  rw [if_neg hne, h]
  exact ⟨rfl, rfl, fun g qs lastError pn hmem =>
    Provider.callModelGo_attempts_le g qs lastError pn hmem⟩

/-- C6 (witness): two backends that both fail fatally on first attempt
produce the terminal failure text with the second backend's error, one
attempt each. -/
theorem c6_router_exhaustion_witness :
    ((["openai", "groq"] : List String) ≠ [])
    ∧ (∀ p ∈ (["openai", "groq"] : List String),
        (fun _ _ => Provider.Outcome.fatal "quota exceeded") p 1
          = Provider.Outcome.fatal ((fun _ : String => "quota exceeded") p))
    ∧ ((Provider.callModel (fun _ _ => Provider.Outcome.fatal "quota exceeded")
          ["openai", "groq"]).response
        = "Service temporarily unavailable. (Last error: "
            ++ (fun _ : String => "quota exceeded")
                ((["openai", "groq"] : List String).getLast (by simp)) ++ ")"
      ∧ (Provider.callModel (fun _ _ => Provider.Outcome.fatal "quota exceeded")
            ["openai", "groq"]).attempts
          = (["openai", "groq"] : List String).map (fun p => (p, 1))
      ∧ ∀ (g : String → Nat → Provider.Outcome) (qs : List String)
          (lastError : String) (pn : String × Nat),
          pn ∈ (Provider.callModelGo g qs lastError).attempts → pn.2 ≤ 2) :=
  ⟨by simp, by decide,
   c6_router_exhaustion (fun _ _ => Provider.Outcome.fatal "quota exceeded")
     ["openai", "groq"] (fun _ => "quota exceeded") (by simp) (by decide)⟩

/-- Definitional unfolding of `GapAnalyzer.analyze` on a non-empty table
list. -/
theorem GapAnalyzer.analyze_cons (db : String → Except String (List GapAnalyzer.GapRow))
    (t : String) (rest : List String) :
    GapAnalyzer.analyze db (t :: rest)
      = (match GapAnalyzer.findEmptyRows db t with
          | Except.error _ => GapAnalyzer.analyze db rest
          | Except.ok rows =>
            if rows = [] then GapAnalyzer.analyze db rest
            else (t, rows) :: GapAnalyzer.analyze db rest) := rfl

/-- C7 (counterexample): a category whose scan succeeds but finds no
incomplete rows is also omitted from the returned mapping — omission is not
caused only by scan failures, and the mapping does not map every audited
category to its (possibly empty) incomplete-row list. -/
theorem c7_counterexample :
    GapAnalyzer.findEmptyRows
        (fun _ => Except.ok [⟨1, "t", some "x"⟩]) "seo_junk" = Except.ok []
    ∧ (GapAnalyzer.analyze
        (fun _ => Except.ok [⟨1, "t", some "x"⟩]) ["seo_junk"]).lookup "seo_junk"
      = none := by
  constructor
  · rfl
  · rfl

/-- C7 (amended): the Gap Auditor returns a mapping containing exactly the
categories whose scan succeeded with at least one incomplete row (a row
whose content is null or empty), each mapped to its incomplete rows (capped
at the query limit of 10000); a failure while scanning one category does
not abort the scan of the remaining categories, and failing categories are
omitted. -/
theorem c7_audit_amended (db : String → Except String (List GapAnalyzer.GapRow))
    (tables : List String) :
    (∀ t rows, (t, rows) ∈ GapAnalyzer.analyze db tables →
      ∃ allRows, db t = Except.ok allRows
        ∧ rows = (allRows.filter GapAnalyzer.rowIncomplete).take 10000
        ∧ rows ≠ [])
    ∧ (∀ t ∈ tables, ∀ allRows, db t = Except.ok allRows →
        (allRows.filter GapAnalyzer.rowIncomplete).take 10000 ≠ [] →
        (t, (allRows.filter GapAnalyzer.rowIncomplete).take 10000)
          ∈ GapAnalyzer.analyze db tables)
    ∧ (∀ (pre post : List String) (t e : String), db t = Except.error e →
        GapAnalyzer.analyze db (pre ++ t :: post)
          = GapAnalyzer.analyze db (pre ++ post)) := by
  refine ⟨?_, ?_, ?_⟩
  · intro t rows hmem
    induction tables with
    | nil => simp [GapAnalyzer.analyze] at hmem
    | cons t0 rest ih =>
      unfold GapAnalyzer.analyze at hmem
      rcases hfe : GapAnalyzer.findEmptyRows db t0 with e | rows0 <;>
        rw [hfe] at hmem <;> dsimp only at hmem
      · exact ih hmem
      · by_cases h0 : rows0 = []
        · rw [if_pos h0] at hmem
          exact ih hmem
        · rw [if_neg h0] at hmem
          rcases List.mem_cons.mp hmem with h | h
          · injection h with h1 h2
            subst h1
            subst h2
            unfold GapAnalyzer.findEmptyRows at hfe
            rcases hdb : db t with e | allRows <;> rw [hdb] at hfe
            · exact Except.noConfusion hfe
            · injection hfe with h3
              exact ⟨allRows, rfl, h3.symm, h0⟩
          · exact ih h
  · intro t hmem allRows hdb hne
    induction tables with
    | nil => simp at hmem
    | cons t0 rest ih =>
      rcases List.mem_cons.mp hmem with h | h
      · subst h
        have hfe : GapAnalyzer.findEmptyRows db t
            = Except.ok ((allRows.filter GapAnalyzer.rowIncomplete).take 10000) := by
          unfold GapAnalyzer.findEmptyRows
          rw [hdb]
        unfold GapAnalyzer.analyze
        rw [hfe]
        dsimp only
        rw [if_neg hne]
        exact List.mem_cons_self _ _
      · have hrec := ih h
        unfold GapAnalyzer.analyze
        rcases hfe : GapAnalyzer.findEmptyRows db t0 with e | rows0 <;> dsimp only
        · exact hrec
        · by_cases h0 : rows0 = []
          · rw [if_pos h0]
            exact hrec
          · rw [if_neg h0]
            exact List.mem_cons_of_mem _ hrec
  · intro pre post t e hdb
    induction pre with
    | nil =>
      simp only [List.nil_append]
      have hfe : GapAnalyzer.findEmptyRows db t = Except.error e := by
        unfold GapAnalyzer.findEmptyRows
        rw [hdb]
      rw [GapAnalyzer.analyze_cons, hfe]
    | cons p pre ih =>
      simp only [List.cons_append]
      rw [GapAnalyzer.analyze_cons, GapAnalyzer.analyze_cons]
      rcases hfe : GapAnalyzer.findEmptyRows db p with e2 | rows0 <;> dsimp only
      · exact ih
      · by_cases h0 : rows0 = []
        · rw [if_pos h0, if_pos h0]
          exact ih
        · rw [if_neg h0, if_neg h0]
          rw [ih]

/-- C7 (witness): a single category with one null-content row is scanned
successfully and appears in the mapping with that row. -/
theorem c7_audit_amended_witness :
    ("seo_junk" ∈ (["seo_junk"] : List String))
    ∧ ((fun _ : String =>
          (Except.ok [⟨1, "a", none⟩] : Except String (List GapAnalyzer.GapRow)))
          "seo_junk"
        = (Except.ok [⟨1, "a", none⟩] : Except String (List GapAnalyzer.GapRow)))
    ∧ ((([⟨1, "a", none⟩] : List GapAnalyzer.GapRow).filter
          GapAnalyzer.rowIncomplete).take 10000 ≠ [])
    ∧ ("seo_junk",
        (([⟨1, "a", none⟩] : List GapAnalyzer.GapRow).filter
          GapAnalyzer.rowIncomplete).take 10000)
      ∈ GapAnalyzer.analyze (fun _ => Except.ok [⟨1, "a", none⟩]) ["seo_junk"] :=
  ⟨by decide, rfl, by decide,
   (c7_audit_amended (fun _ => Except.ok [⟨1, "a", none⟩]) ["seo_junk"]).2.1
     "seo_junk" (by decide) [⟨1, "a", none⟩] rfl (by decide)⟩

namespace Embedder

/-- The embeddability test of `embed_packages`:
`if content and content.strip():` — non-empty content whose stripped form is
non-empty. -/
def shouldEmbed (pkg : Package) : Bool :=
  !(pkg.content == "") && !(pyStrip pkg.content == "")

/-- The per-text preprocessing of `LocalEmbedder.embed_batch`:
`t.strip().replace("\n", " ")`. -/
def cleanText (t : String) : String :=
  String.mk ((pyStrip t).toList.map (fun c => if c == '\n' then ' ' else c))

/-- `LocalEmbedder.embed_batch`: empty input short-circuits to `[]`; the
model call (oracle `encode`, which may raise) runs on the cleaned texts;
any exception is caught and turned into `[]`
(`except Exception: ... return []`). -/
def embedBatch (encode : List String → Except String (List (List Int)))
    (texts : List String) : List (List Int) :=
  if texts.isEmpty then []
  else
    match encode (texts.map cleanText) with
    | Except.ok vs => vs
    | Except.error _ => []

/-- The vector re-attachment of `embed_packages`: the k-th embeddable
package receives the k-th returned vector (the `zip(indices_to_embed,
vectors)` bookkeeping); packages with empty or whitespace-only content get
`embedding = None`; if the vector list runs short (as after a failed batch
call) the remaining embeddable packages are left untouched. -/
def attachVectors : List Package → List (List Int) → List Package
  | [], _ => []
  | pkg :: rest, vs =>
    if shouldEmbed pkg then
      match vs with
      | [] => pkg :: attachVectors rest []
      | v :: vs2 => { pkg with embedding := some v } :: attachVectors rest vs2
    else { pkg with embedding := none } :: attachVectors rest vs

/-- `embed_packages` of embedder.py: empty package lists pass through; the
embeddable contents are batch-embedded and re-attached in order. -/
def embedPackages (encode : List String → Except String (List (List Int)))
    (packages : List Package) : List Package :=
  if packages.isEmpty then packages
  else
    attachVectors packages
      (embedBatch encode ((packages.filter shouldEmbed).map (fun p => p.content)))

/-- Attachment invariant: when exactly one vector per embeddable package is
supplied, every embeddable package gets a vector and every non-embeddable
package gets none. -/
theorem attachVectors_spec :
    ∀ (packages : List Package) (vs : List (List Int)),
      vs.length = (packages.filter shouldEmbed).length →
      ∀ pq ∈ packages.zip (attachVectors packages vs),
        (shouldEmbed pq.1 = true → pq.2.embedding.isSome)
        ∧ (shouldEmbed pq.1 = false → pq.2.embedding = none) := by
  intro packages
  induction packages with
  | nil => intro vs _ pq hmem; simp at hmem
  | cons pkg rest ih =>
    intro vs hlen pq hmem
    by_cases hs : shouldEmbed pkg
    · rcases vs with _ | ⟨v, vs2⟩
      · exfalso
        simp [List.filter_cons, hs] at hlen
      · simp only [attachVectors, hs, if_true, ite_true] at hmem
        rcases List.mem_cons.mp hmem with h | h
        · subst h
          refine ⟨fun _ => ?_, fun hfalse => ?_⟩
          · simp
          · rw [hs] at hfalse
            exact Bool.noConfusion hfalse
        · refine ih vs2 ?_ pq h
          simp [List.filter_cons, hs] at hlen
          omega
    · simp only [attachVectors, hs, if_false, Bool.false_eq_true, ite_false] at hmem
      rcases List.mem_cons.mp hmem with h | h
      · subst h
        refine ⟨fun htrue => ?_, fun _ => ?_⟩
        · rw [htrue] at hs
          exact absurd rfl hs
        · simp
      · refine ih vs ?_ pq h
        simpa [List.filter_cons, hs] using hlen

end Embedder

/-- C9 (counterexample): when the batch model call fails, `embed_batch`
returns `[]` and a package with non-empty content leaves the Embed stage
with no vector attached — refuting "every package with non-empty content
leaves the Embed stage with a vector attached". -/
theorem c9_counterexample :
    Embedder.embedPackages (fun _ => Except.error "model failure")
        [{ table := none, content := "hello", word_count := 1, embedding := none }]
      = [{ table := none, content := "hello", word_count := 1, embedding := none }]
    ∧ pyStrip "hello" ≠ ""
    ∧ Embedder.shouldEmbed
        { table := none, content := "hello", word_count := 1, embedding := none }
      = true := by
  refine ⟨by decide, by decide, by decide⟩

/-- C9 (amended): provided the batch model call succeeds and returns one
vector per embeddable text, every package whose content is non-empty and
not whitespace-only leaves the Embed stage with a vector attached, and a
package's vector is absent exactly when its content is empty or
whitespace-only. -/
theorem c9_embed_invariant (encode : List String → Except String (List (List Int)))
    (packages : List Package) (vs : List (List Int))
    (hok : encode (((packages.filter Embedder.shouldEmbed).map
          (fun p => p.content)).map Embedder.cleanText) = Except.ok vs)
    (hlen : vs.length = (packages.filter Embedder.shouldEmbed).length) :
    ∀ pq ∈ packages.zip (Embedder.embedPackages encode packages),
      (Embedder.shouldEmbed pq.1 = true → pq.2.embedding.isSome)
      ∧ (Embedder.shouldEmbed pq.1 = false → pq.2.embedding = none) := by
  unfold Embedder.embedPackages
  by_cases hp : packages.isEmpty
  · rw [if_pos hp]
    intro pq hmem
    rcases packages with _ | ⟨a, l⟩
    · simp at hmem
    · exact absurd hp (by simp)
  · rw [if_neg hp]
    unfold Embedder.embedBatch
    by_cases ht : ((packages.filter Embedder.shouldEmbed).map
        (fun p : Package => p.content)).isEmpty
    · rw [if_pos ht]
      refine Embedder.attachVectors_spec packages [] ?_
      simp only [List.isEmpty_iff, List.map_eq_nil_iff] at ht
      simp [ht]
    · rw [if_neg ht, hok]
      exact Embedder.attachVectors_spec packages vs hlen

/-- C9 (witness): a successful batch call attaches a vector to the single
non-empty package. -/
theorem c9_embed_invariant_witness :
    ((fun _ => Except.ok [[1]] : List String → Except String (List (List Int)))
        (((([{ table := none, content := "hi", word_count := 1, embedding := none }]
            : List Package).filter Embedder.shouldEmbed).map
          (fun p => p.content)).map Embedder.cleanText)
      = Except.ok [[1]])
    ∧ (([[1]] : List (List Int)).length
        = (([{ table := none, content := "hi", word_count := 1, embedding := none }]
            : List Package).filter Embedder.shouldEmbed).length)
    ∧ ((Embedder.shouldEmbed
          { table := none, content := "hi", word_count := 1, embedding := none } = true →
        ({ table := none, content := "hi", word_count := 1,
           embedding := some [1] } : Package).embedding.isSome)
      ∧ (Embedder.shouldEmbed
            { table := none, content := "hi", word_count := 1, embedding := none } = false →
          ({ table := none, content := "hi", word_count := 1,
             embedding := some [1] } : Package).embedding = none)) :=
  ⟨rfl, by decide,
   c9_embed_invariant (fun _ => Except.ok [[1]])
     [{ table := none, content := "hi", word_count := 1, embedding := none }]
     [[1]] rfl (by decide)
     ({ table := none, content := "hi", word_count := 1, embedding := none },
      { table := none, content := "hi", word_count := 1, embedding := some [1] })
     (by decide)⟩

namespace Memory

/-- `_ALLOWED_TABLES` of memory.py. -/
def ALLOWED_TABLES : List String :=
  ["website_builder_mastery_junk", "seo_junk", "psychology_empathy_junk",
   "website_types_junk", "analytics_junk", "content_design_junk",
   "multimodal_visual_search_junk", "ai_prompt_engineering_junk",
   "code_skills_junk", "schema_skills_junk", "meta_skills_junk",
   "backlinks_junk", "social_media_junk", "master_strategy_junk",
   "critical_thinking_junk"]

/-- The row dict built for each inserted package. -/
structure Row where
  content : String
  embedding : List Int
  source_url : String
  chunk_index : Nat
  word_count : Nat
deriving Repr, DecidableEq

/-- Per-package outcome recorded in the `details` list. -/
inductive DetailStatus where
  | inserted
  | skipped
  | failed
deriving Repr, DecidableEq

/-- The summary of `insert_packages_to_supabase`, plus (as an observable
trace) the `(table, row)` pairs actually sent to the client. -/
structure InsertSummary where
  inserted_count : Nat
  skipped_count : Nat
  failed_count : Nat
  details : List (Nat × DetailStatus)
  attempts : List (String × Row)
deriving Repr, DecidableEq

/-- The table gate of the loop: `if not table or table not in allowed`. -/
def tableBad (pkg : Package) : Prop :=
  pkg.table = none ∨ pkg.table.getD "" = "" ∨ ¬ ALLOWED_TABLES.contains (pkg.table.getD "")

instance (pkg : Package) : Decidable (tableBad pkg) := by
  unfold tableBad
  infer_instance

/-- A package the loop skips (disallowed table, missing vector, or empty
content: `if embedding is None or not content.strip()`). -/
def badPkg (pkg : Package) : Prop :=
  tableBad pkg ∨ pkg.embedding = none ∨ pyStrip pkg.content = ""

instance (pkg : Package) : Decidable (badPkg pkg) := by
  unfold badPkg
  infer_instance

/-- The `for i, package in enumerate(packages)` loop of
`insert_packages_to_supabase`, processing the packages from index `i`
onward: table gate, embedding/content gate, row construction with the
enumerate index as `chunk_index`, and the guarded client call (oracle
`db`), every exception counted as one failed insert. -/
def insertGo (db : String → Row → Except String Unit) (src : String) :
    List Package → Nat → InsertSummary
  | [], _ =>
    { inserted_count := 0, skipped_count := 0, failed_count := 0
      details := [], attempts := [] }
  | pkg :: rest, i =>
    if tableBad pkg then
      { insertGo db src rest (i + 1) with
          skipped_count := (insertGo db src rest (i + 1)).skipped_count + 1
          details := (i, DetailStatus.skipped) :: (insertGo db src rest (i + 1)).details }
    else if pkg.embedding = none ∨ pyStrip pkg.content = "" then
      { insertGo db src rest (i + 1) with
          skipped_count := (insertGo db src rest (i + 1)).skipped_count + 1
          details := (i, DetailStatus.skipped) :: (insertGo db src rest (i + 1)).details }
    else
      match db (pkg.table.getD "")
          { content := pkg.content, embedding := pkg.embedding.getD []
            source_url := src, chunk_index := i, word_count := pkg.word_count } with
      | Except.ok _ =>
        { insertGo db src rest (i + 1) with
            inserted_count := (insertGo db src rest (i + 1)).inserted_count + 1
            details := (i, DetailStatus.inserted) :: (insertGo db src rest (i + 1)).details
            attempts := (pkg.table.getD "",
              { content := pkg.content, embedding := pkg.embedding.getD []
                source_url := src, chunk_index := i, word_count := pkg.word_count })
              :: (insertGo db src rest (i + 1)).attempts }
      | Except.error _ =>
        { insertGo db src rest (i + 1) with
            failed_count := (insertGo db src rest (i + 1)).failed_count + 1
            details := (i, DetailStatus.failed) :: (insertGo db src rest (i + 1)).details
            attempts := (pkg.table.getD "",
              { content := pkg.content, embedding := pkg.embedding.getD []
                source_url := src, chunk_index := i, word_count := pkg.word_count })
              :: (insertGo db src rest (i + 1)).attempts }

/-- `insert_packages_to_supabase`: the early return for an empty package
list, otherwise the enumerate loop from index 0. -/
def insertPackages (db : String → Row → Except String Unit) (src : String)
    (packages : List Package) : InsertSummary :=
  if packages.isEmpty then
    { inserted_count := 0, skipped_count := 0, failed_count := 0
      details := [], attempts := [] }
  else insertGo db src packages 0

/-- Every package is classified into exactly one of the three outcomes. -/
theorem insertGo_sum (db : String → Row → Except String Unit) (src : String) :
    ∀ (pkgs : List Package) (i : Nat),
      (insertGo db src pkgs i).inserted_count
        + (insertGo db src pkgs i).skipped_count
        + (insertGo db src pkgs i).failed_count
      = pkgs.length := by
  intro pkgs
  induction pkgs with
  | nil => intro i; simp [insertGo]
  | cons pkg rest ih =>
    intro i
    have h := ih (i + 1)
    unfold insertGo
    split
    · dsimp only
      simp only [List.length_cons]
      omega
    · split
      · dsimp only
        simp only [List.length_cons]
        omega
      · split
        · dsimp only
          simp only [List.length_cons]
          omega
        · dsimp only
          simp only [List.length_cons]
          omega

/-- Every row sent to the client comes from a non-skipped package at the
position recorded in its `chunk_index`, with matching fields. -/
theorem insertGo_attempts (db : String → Row → Except String Unit) (src : String) :
    ∀ (pkgs : List Package) (i : Nat) (tr : String × Row),
      tr ∈ (insertGo db src pkgs i).attempts →
      ∃ j pkg, pkgs.get? j = some pkg
        ∧ tr.2.chunk_index = i + j
        ∧ tr.2.content = pkg.content
        ∧ pkg.embedding = some tr.2.embedding
        ∧ tr.2.source_url = src
        ∧ tr.2.word_count = pkg.word_count
        ∧ pkg.table = some tr.1
        ∧ ¬ badPkg pkg := by
  intro pkgs
  induction pkgs with
  | nil => intro i tr h; simp [insertGo] at h
  | cons pkg rest ih =>
    intro i tr h
    unfold insertGo at h
    split at h
    · next hbad =>
      dsimp only at h
      obtain ⟨j, pkg2, h1, h2, hrest⟩ := ih (i + 1) tr h
      exact ⟨j + 1, pkg2, by simpa using h1, by omega, hrest⟩
    · next hbad1 =>
      split at h
      · next hbad2 =>
        dsimp only at h
        obtain ⟨j, pkg2, h1, h2, hrest⟩ := ih (i + 1) tr h
        exact ⟨j + 1, pkg2, by simpa using h1, by omega, hrest⟩
      · next hbad2 =>
        have hgood : ¬ badPkg pkg := by
          unfold badPkg
          push_neg
          push_neg at hbad2
          exact ⟨by assumption, hbad2.1, hbad2.2⟩
        have hemb : ∃ v, pkg.embedding = some v := by
          rcases he : pkg.embedding with _ | v
          · exact absurd (Or.inl he) hbad2
          · exact ⟨v, rfl⟩
        split at h <;>
        · dsimp only at h
          rcases List.mem_cons.mp h with h3 | h3
          · subst h3
            refine ⟨0, pkg, by simp, by simp, rfl, ?_, rfl, rfl, ?_, hgood⟩
            · obtain ⟨v, hv⟩ := hemb
              simp [hv]
            · rcases ht : pkg.table with _ | t
              · exact absurd (Or.inl ht) (fun hb => hgood (Or.inl hb))
              · simp [ht]
          · obtain ⟨j, pkg2, h1, h2, hrest⟩ := ih (i + 1) tr h3
            exact ⟨j + 1, pkg2, by simpa using h1, by omega, hrest⟩

/-- Every package hitting one of the skip conditions is recorded as
skipped. -/
theorem insertGo_skipped (db : String → Row → Except String Unit) (src : String) :
    ∀ (pkgs : List Package) (i j : Nat) (pkg : Package),
      pkgs.get? j = some pkg → badPkg pkg →
      (i + j, DetailStatus.skipped) ∈ (insertGo db src pkgs i).details := by
  intro pkgs
  induction pkgs with
  | nil => intro i j pkg h; simp at h
  | cons pkg0 rest ih =>
    intro i j pkg hget hbad
    rcases j with _ | j
    · simp only [List.get?_cons_zero, Option.some.injEq] at hget
      subst hget
      unfold insertGo
      split
      · dsimp only
        simp
      · next hb1 =>
        split
        · dsimp only
          simp
        · next hb2 =>
          exfalso
          rcases hbad with h | h
          · exact hb1 h
          · exact hb2 h
    · have hrec := ih (i + 1) j pkg (by simpa using hget) hbad
      have hshift : i + 1 + j = i + (j + 1) := by omega
      unfold insertGo
      split
      · dsimp only
        rw [hshift] at hrec
        exact List.mem_cons_of_mem _ hrec
      · split
        · dsimp only
          rw [hshift] at hrec
          exact List.mem_cons_of_mem _ hrec
        · split <;>
          · dsimp only
            rw [hshift] at hrec
            exact List.mem_cons_of_mem _ hrec

end Memory

/-- C10: the persistence writer classifies each package into exactly one
outcome (`inserted + skipped + failed = number of packages`); a package
with a missing or disallowed table, a missing vector, or empty content is
recorded as skipped and no row is sent for it; and every row actually sent
carries `chunk_index` equal to its package's position in the input list,
with content, vector, source URL and word count taken from that package. -/
theorem c10_persist_outcomes (db : String → Memory.Row → Except String Unit)
    (src : String) (packages : List Package) :
    (Memory.insertPackages db src packages).inserted_count
        + (Memory.insertPackages db src packages).skipped_count
        + (Memory.insertPackages db src packages).failed_count
      = packages.length
    ∧ (∀ (j : Nat) (pkg : Package), packages.get? j = some pkg →
        Memory.badPkg pkg →
        ((j, Memory.DetailStatus.skipped)
            ∈ (Memory.insertPackages db src packages).details
          ∧ ∀ tr ∈ (Memory.insertPackages db src packages).attempts,
              tr.2.chunk_index ≠ j))
    ∧ (∀ tr ∈ (Memory.insertPackages db src packages).attempts,
        ∃ pkg, packages.get? tr.2.chunk_index = some pkg
          ∧ tr.2.content = pkg.content
          ∧ pkg.embedding = some tr.2.embedding
          ∧ tr.2.source_url = src
          ∧ tr.2.word_count = pkg.word_count
          ∧ pkg.table = some tr.1) := by
  unfold Memory.insertPackages
  by_cases hp : packages.isEmpty
  · rw [if_pos hp]
    have hnil : packages = [] := List.isEmpty_iff.mp hp
    subst hnil
    refine ⟨rfl, ?_, ?_⟩
    · intro j pkg hget
      simp at hget
    · intro tr htr
      simp at htr
  · rw [if_neg hp]
    refine ⟨Memory.insertGo_sum db src packages 0, ?_, ?_⟩
    · intro j pkg hget hbad
      refine ⟨?_, ?_⟩
      · have h := Memory.insertGo_skipped db src packages 0 j pkg hget hbad
        simpa using h
      · intro tr htr hc
        obtain ⟨j2, pkg2, hget2, hidx, _, _, _, _, _, hgood⟩ :=
          Memory.insertGo_attempts db src packages 0 tr htr
        rw [hc] at hidx
        have hj : j2 = j := by omega
        subst hj
        rw [hget] at hget2
        injection hget2 with he
        subst he
        exact hgood hbad
    · intro tr htr
      obtain ⟨j2, pkg2, hget2, hidx, hcon, hemb, hsrc, hwc, htab, _⟩ :=
        Memory.insertGo_attempts db src packages 0 tr htr
      refine ⟨pkg2, ?_, hcon, hemb, hsrc, hwc, htab⟩
      rw [hidx]
      simpa using hget2

/-- C10 (witness): with one good and one bad package, the bad one (missing
table and vector) is skipped and no sent row carries its index. -/
theorem c10_persist_outcomes_witness :
    (([{ table := some "seo_junk", content := "hello world", word_count := 2,
          embedding := some [1, 2] },
        { table := none, content := "x", word_count := 1, embedding := none }] :
        List Package).get? 1
      = some { table := none, content := "x", word_count := 1, embedding := none })
    ∧ Memory.badPkg
        { table := none, content := "x", word_count := 1, embedding := none }
    ∧ ((1, Memory.DetailStatus.skipped)
          ∈ (Memory.insertPackages (fun _ _ => Except.ok ()) "https://s.example"
              [{ table := some "seo_junk", content := "hello world", word_count := 2,
                  embedding := some [1, 2] },
                { table := none, content := "x", word_count := 1,
                  embedding := none }]).details
        ∧ ∀ tr ∈ (Memory.insertPackages (fun _ _ => Except.ok ()) "https://s.example"
              [{ table := some "seo_junk", content := "hello world", word_count := 2,
                  embedding := some [1, 2] },
                { table := none, content := "x", word_count := 1,
                  embedding := none }]).attempts,
            tr.2.chunk_index ≠ 1) :=
  ⟨rfl, by decide,
   (c10_persist_outcomes (fun _ _ => Except.ok ()) "https://s.example"
     [{ table := some "seo_junk", content := "hello world", word_count := 2,
         embedding := some [1, 2] },
       { table := none, content := "x", word_count := 1, embedding := none }]).2.1
     1 { table := none, content := "x", word_count := 1, embedding := none }
     rfl (by decide)⟩
